import Mathlib

/-!
Shallow embedding of the GPU compute engine core of `voxel_renderer_rs`
(`src/engine/{buffer.rs, task.rs, program.rs, errors.rs}`).

Memory is modelled explicitly: `Mem α` is the list of live allocations of a
Vulkan memory allocator, each allocation a list of elements of type `α`.
A `vk::Subbuffer<[T]>` is a window `(alloc, start, len)` into one allocation;
cloning a subbuffer clones an `Arc`, so a handle is just this triple and
sharing of storage is sharing of the `alloc` index.  Rust panics (from
`copy_from_slice` et al.) are modelled by a dedicated result constructor.
-/

namespace Engine

/-- Result of a Rust call that may return `Ok`, return `Err`, or panic. -/
inductive RRes (ε : Type) (α : Type) where
  | ok (a : α)
  | err (e : ε)
  | panicked
  deriving Repr, DecidableEq

/-- Error enum `BufferError` of `src/engine/buffer.rs`. -/
inductive BufferError where
  | rangeIsEmpty
  | rangeIsOutOfBounds
  | lengthIsZero
  | vulkanBufferReadFailed
  | vulkanBufferWriteFailed
  | vulkanBufferCreationFailed
  deriving Repr, DecidableEq

/-- Error enum `TaskError` of `src/engine/task.rs` (constructors used by the
claims; the vulkano-internal failure kinds are kept for faithfulness). -/
inductive TaskError where
  | vulkanFutureFenceFlushFailed
  | waitFailed
  | taskSubmissionFailed
  | vulkanCommandBufferBuilderCreationFailed
  | vulkanCommandBufferBuildFailed
  | vulkanCopyBufferFailed
  | vulkanDescriptorSetCreationFailed
  | vulkanDescriptorSetBindingFailed
  | vulkanPipelineBindingFailed
  | vulkanDispatchFailed
  deriving Repr, DecidableEq

/-- Legacy error enum `Error` of `src/engine/errors.rs`.  It declares
`UnequalBufferSize`, but no function in the repository ever constructs that
variant: the enum is dead code (the live modules use `BufferError`,
`TaskError`, `ProgramError`, `InstanceError`). -/
inductive Error where
  | vkBufferCreate
  | vkBufferRead
  | vkBufferWrite
  | outOfBoundsRead
  | outOfBoundsWrite
  | zeroSized
  | unequalBufferSize
  deriving Repr, DecidableEq

/-- The memory of the allocator: every live allocation, in allocation order. -/
abbrev Mem (α : Type) : Type := List (List α)

/-- Buffer location marker types `buffer_location::{Cpu, Gpu}`. -/
inductive Loc where
  | cpu
  | gpu
  deriving Repr, DecidableEq

/-- A `vk::Subbuffer<[T]>`: a window into one allocation.  `start` and `len`
are in elements, mirroring the element-indexed `Subbuffer<[T]>` API. -/
structure Subbuffer (α : Type) where
  alloc : Nat
  start : Nat
  len : Nat
  deriving Repr, DecidableEq

/-- Rust `Range<usize>` (`end` is a Lean keyword, rendered `stop`). -/
structure RustRange where
  start : Nat
  stop : Nat
  deriving Repr, DecidableEq

/-- `Subbuffer::slice(range)`: a sub-window, offset relative to `self`.
The caller (`Buffer::sub`) has already bounds-checked the range. -/
def Subbuffer.slice (sb : Subbuffer α) (r : RustRange) : Subbuffer α :=
  ⟨sb.alloc, sb.start + r.start, r.stop - r.start⟩

/-- The elements an allocation holds, `[]` if the index is not live. -/
def Mem.allocAt (m : Mem α) (a : Nat) : List α :=
  (m[a]?).getD []

/-- The elements visible through a subbuffer window: positions
`start, …, start+len-1` of its allocation (what `Subbuffer::read` exposes). -/
def Subbuffer.view (m : Mem α) (sb : Subbuffer α) : List α :=
  ((m.allocAt sb.alloc).drop sb.start).take sb.len

/-- Overwrite positions `i, …, i + d.length - 1` of `l` with `d`
(the effect of `copy_from_slice` into the slice starting at `i`). -/
def writeAt (l : List α) (i : Nat) (d : List α) : List α :=
  l.take i ++ d ++ l.drop (i + d.length)

/-- Memory after storing `d` at the front of the window `sb`. -/
def Subbuffer.store (m : Mem α) (sb : Subbuffer α) (d : List α) : Mem α :=
  List.set m sb.alloc (writeAt (m.allocAt sb.alloc) sb.start d)

/-- The handle `sb` denotes a window lying inside a live allocation. -/
def Subbuffer.WF (m : Mem α) (sb : Subbuffer α) : Prop :=
  sb.alloc < m.length ∧ sb.start + sb.len ≤ (m.allocAt sb.alloc).length

instance (m : Mem α) (sb : Subbuffer α) : Decidable (sb.WF m) := by
  unfold Subbuffer.WF; infer_instance

/-- `struct Buffer<T, Location> { buffer: vk::Subbuffer<[T]>, location: PhantomData }`
of `src/engine/buffer.rs`.  `derive(Clone)` clones the `Arc`-backed subbuffer,
so a clone is the same window into the same allocation. -/
structure Buffer (α : Type) (loc : Loc) where
  buffer : Subbuffer α
  deriving Repr, DecidableEq

/-- `Buffer::clone` (from `#[derive(Clone)]`): the cloned handle holds a
subbuffer with the same allocation, offset and length. -/
def Buffer.clone (b : Buffer α loc) : Buffer α loc := ⟨b.buffer⟩

/-- `Buffer::len`. -/
def Buffer.len (b : Buffer α loc) : Nat := b.buffer.len

/-- `Buffer::sub`: reject empty ranges, then out-of-bounds ranges, then
slice the shared subbuffer. -/
def Buffer.sub (b : Buffer α loc) (range : RustRange) :
    Except BufferError (Buffer α loc) :=
  if range.start ≥ range.stop then
    .error .rangeIsEmpty
  else if range.stop > b.len then
    .error .rangeIsOutOfBounds
  else
    .ok ⟨b.buffer.slice range⟩

/-- `struct BufferBinding`: a `WriteDescriptorSet::buffer(binding, subbuffer)`,
capturing the slot number and the (cloned, hence shared) subbuffer. -/
structure BufferBinding (α : Type) where
  binding : Nat
  buffer : Subbuffer α
  deriving Repr, DecidableEq

/-- `Buffer::bind`. -/
def Buffer.bind (b : Buffer α loc) (binding : Nat) : BufferBinding α :=
  ⟨binding, b.buffer⟩

/-- `Buffer::<T, Cpu>::new`: reject zero length, else allocate a fresh
host-visible allocation of `len` elements.  Freshly allocated memory is
zero-initialised (`default`), as the repository's own `copy_buffer_sub`
test asserts (`buffer_b.read() == [0, 1, 2, 0]`). -/
def CpuBuffer.new [Inhabited α] (m : Mem α) (len : Nat) :
    Except BufferError (Buffer α .cpu × Mem α) :=
  if len = 0 then
    .error .lengthIsZero
  else
    .ok (⟨⟨m.length, 0, len⟩⟩, m ++ [List.replicate len default])

/-- `Buffer::<T, Gpu>::new`: identical checks, device-local allocation. -/
def GpuBuffer.new [Inhabited α] (m : Mem α) (len : Nat) :
    Except BufferError (Buffer α .gpu × Mem α) :=
  if len = 0 then
    .error .lengthIsZero
  else
    .ok (⟨⟨m.length, 0, len⟩⟩, m ++ [List.replicate len default])

/-- `Buffer::<T, Cpu>::read`: copies the window's elements out in index
order.  In this single-threaded model the host mapping always succeeds. -/
def Buffer.read (m : Mem α) (b : Buffer α .cpu) : Except BufferError (List α) :=
  .ok (b.buffer.view m)

/-- `Buffer::<T, Cpu>::write`: the source does
`mapped[..min(data.len(), self.len())].copy_from_slice(data.as_slice())`.
The destination slice has `min(data.len(), self.len())` elements while the
source slice is all of `data`; `copy_from_slice` panics when the two slice
lengths differ, i.e. exactly when `data.len() > self.len()`.  Otherwise the
first `data.len()` elements of the window are overwritten. -/
def Buffer.write (m : Mem α) (b : Buffer α .cpu) (data : List α) :
    RRes BufferError (Mem α) :=
  if data.length ≤ b.len then
    .ok (b.buffer.store m data)
  else
    .panicked

/-- `Buffer::<T, Cpu>::from_vec`: allocate for `data.len()` elements, then
write `data` (propagating either failure). -/
def CpuBuffer.from_vec [Inhabited α] (m : Mem α) (data : List α) :
    RRes BufferError (Buffer α .cpu × Mem α) :=
  match CpuBuffer.new m data.length with
  | .error e => .err e
  | .ok (b, m₁) =>
    match Buffer.write m₁ b data with
    | .ok m₂ => .ok (b, m₂)
    | .err e => .err e
    | .panicked => .panicked

/-- `struct Program` of `src/engine/program.rs`: a compiled compute pipeline.
`setLayouts` is the list of descriptor-set layouts derived from the shader's
declared bindings (each layout the list of its binding slot numbers, mirroring
`PipelineDescriptorSetLayoutCreateInfo::from_stages`); `denote` is the GPU
execution semantics of one dispatch of the pipeline — workgroup counts and
bound buffers to a memory transformation.  The compilation pipeline itself
(shaderc, SPIR-V, driver) is an external collaborator, so the compiled
pipeline's behaviour enters the model as this denotation field. -/
structure Program (α : Type) where
  setLayouts : List (List Nat)
  denote : Nat × Nat × Nat → List (BufferBinding α) → Mem α → Mem α

/-- One recorded command of a command buffer: a buffer-to-buffer copy or a
compute dispatch (pipeline bind + descriptor-set bind + dispatch). -/
inductive Cmd (α : Type) where
  | copy (src dst : Subbuffer α)
  | dispatch (p : Program α) (wg : Nat × Nat × Nat) (bindings : List (BufferBinding α))

/-- Executing one recorded command on the device.  A `copy` recorded through
`vk::CopyBufferInfo::buffers(src, dst)` copies `min(src.len, dst.len)`
elements from the start of `src` to the start of `dst` (vulkano sizes the
single copy region with the minimum of the two subbuffer sizes).  A
`dispatch` runs the pipeline's denotation. -/
def Cmd.exec : Cmd α → Mem α → Mem α
  | .copy src dst, m => dst.store m ((src.view m).take (min src.len dst.len))
  | .dispatch p wg bindings, m => p.denote wg bindings m

/-- `struct TaskBuilder` of `src/engine/task.rs`: the append-only recording
state (device/queue capabilities carry no observable semantics here). -/
structure TaskBuilder (α : Type) where
  cmds : List (Cmd α)

/-- `struct Task`: the frozen, resubmittable command sequence. -/
structure Task (α : Type) where
  cmds : List (Cmd α)

/-- `struct TaskFuture`: one in-flight submission; `result` is the memory
once that submission has completed on the device. -/
structure TaskFuture (α : Type) where
  result : Mem α

/-- `TaskBuilder::new`: opens an empty recording (command-buffer allocation
succeeds in the model). -/
def TaskBuilder.new : Except TaskError (TaskBuilder α) := .ok ⟨[]⟩

/-- `TaskBuilder::copy_buffer`: records the copy and returns the builder.
The source performs no length comparison of its own — it hands both
subbuffers to `vk::CopyBufferInfo::buffers`, whose region covers
`min(src.len, dst.len)` elements, so recording succeeds for any pair. -/
def TaskBuilder.copy_buffer (tb : TaskBuilder α) (src : Buffer α locS)
    (dst : Buffer α locD) : Except TaskError (TaskBuilder α) :=
  .ok ⟨tb.cmds ++ [.copy src.buffer dst.buffer]⟩

/-- `TaskBuilder::run_program`: the source calls
`…set_layouts().get(0).unwrap()` — a panic when the pipeline has no
descriptor-set layout — then creates a descriptor set from the bindings,
failing with `VulkanDescriptorSetCreationFailed` when a binding's slot is
not declared by the layout (the repository's `run_program_wrong_binding`
test), and records bind + dispatch. -/
def TaskBuilder.run_program (tb : TaskBuilder α) (p : Program α)
    (wg : Nat × Nat × Nat) (bindings : List (BufferBinding α)) :
    RRes TaskError (TaskBuilder α) :=
  match p.setLayouts.head? with
  | none => .panicked
  | some layout =>
    if bindings.all (fun b => layout.contains b.binding) then
      .ok ⟨tb.cmds ++ [.dispatch p wg bindings]⟩
    else
      .err .vulkanDescriptorSetCreationFailed

/-- `TaskBuilder::build`: freezes the recorded sequence. -/
def TaskBuilder.build (tb : TaskBuilder α) : Except TaskError (Task α) :=
  .ok ⟨tb.cmds⟩

/-- Device-side execution of a finalized command sequence, strictly in
recorded order, over the memory as it is at submission time. -/
def Task.exec (t : Task α) (m : Mem α) : Mem α :=
  t.cmds.foldl (fun m c => c.exec m) m

/-- `Task::submit`: enqueues the finalized sequence against the current
memory and returns the future of that one submission. -/
def Task.submit (t : Task α) (m : Mem α) : Except TaskError (TaskFuture α) :=
  .ok ⟨t.exec m⟩

/-- `TaskFuture::wait`: blocks until the submission completes, yielding the
post-execution memory. -/
def TaskFuture.wait (f : TaskFuture α) : Except TaskError (Mem α) :=
  .ok f.result

/-- `Task::submit_and_wait`: submit, then wait, propagating either error. -/
def Task.submit_and_wait (t : Task α) (m : Mem α) :
    Except TaskError (Mem α) :=
  match t.submit m with
  | .error e => .error e
  | .ok f => f.wait

/-- Modelled from the spec: the doubling compute shader of the end-to-end
example (GLSL `data[gl_GlobalInvocationID.x] *= 2;`, `binding = 0`,
workgroup size `(1,1,1)`).  Shader execution happens on the GPU — outside
the repository — so its semantics is taken from the spec's §8 end-to-end
property: dispatching `(x, 1, 1)` workgroups doubles elements
`0, …, x-1` of the buffer bound at slot 0. -/
def doubleProgram : Program Int where
  setLayouts := [[0]]
  denote := fun wg bindings m =>
    match bindings.head? with
    | none => m
    | some b => b.buffer.store m (((b.buffer.view m).take wg.1).map (fun x => 2 * x))

/-- The 4-element buffer of the doubling example, bound at slot 0, viewing
the first allocation whole. -/
def doubleBuf : Buffer Int .cpu := ⟨⟨0, 0, 4⟩⟩

/-- The doubling Task: one dispatch of `doubleProgram` over `doubleBuf`
with workgroup counts `(4, 1, 1)`. -/
def doubleTask : Task Int :=
  ⟨[.dispatch doubleProgram (4, 1, 1) [doubleBuf.bind 0]]⟩

/-- The builder chain of the doubling example:
`TaskBuilder::new` → `run_program` → `build`, with failure propagation. -/
def doubleBuild : RRes TaskError (Task Int) :=
  match (TaskBuilder.new : Except TaskError (TaskBuilder Int)) with
  | .error e => .err e
  | .ok tb =>
    match tb.run_program doubleProgram (4, 1, 1) [doubleBuf.bind 0] with
    | .panicked => .panicked
    | .err e => .err e
    | .ok tb₂ =>
      match tb₂.build with
      | .error e => .err e
      | .ok t => .ok t

/-- A buffer value reachable through the public API: produced by
`Buffer::<T, Cpu>::new`, `Buffer::<T, Gpu>::new`, `Buffer::<T, Cpu>::from_vec`,
`Buffer::sub`, or `Buffer::clone` (the operations of the repository that
yield buffer values). -/
inductive ReachableBuffer [Inhabited α] : {loc : Loc} → Buffer α loc → Prop where
  | ofNewCpu (m : Mem α) (len : Nat) (b : Buffer α .cpu) (m' : Mem α)
      (h : CpuBuffer.new m len = .ok (b, m')) : ReachableBuffer b
  | ofNewGpu (m : Mem α) (len : Nat) (b : Buffer α .gpu) (m' : Mem α)
      (h : GpuBuffer.new m len = .ok (b, m')) : ReachableBuffer b
  | ofFromVec (m : Mem α) (data : List α) (b : Buffer α .cpu) (m' : Mem α)
      (h : CpuBuffer.from_vec m data = .ok (b, m')) : ReachableBuffer b
  | ofSub {loc : Loc} (b b' : Buffer α loc) (r : RustRange)
      (hb : ReachableBuffer b) (h : Buffer.sub b r = .ok b') : ReachableBuffer b'
  | ofClone {loc : Loc} (b : Buffer α loc) (hb : ReachableBuffer b) :
      ReachableBuffer (Buffer.clone b)

/-! Pointwise characterizations of the memory operations. -/

theorem length_writeAt (l d : List α) (i : Nat) (h : i + d.length ≤ l.length) :
    (writeAt l i d).length = l.length := by
  simp [writeAt]
  omega

theorem getElem?_writeAt (l d : List α) (i j : Nat) (h : i + d.length ≤ l.length) :
    (writeAt l i d)[j]? =
      if i ≤ j ∧ j < i + d.length then d[j - i]? else l[j]? := by
  have hti : (l.take i).length = i := by
    simp [List.length_take]
    omega
  unfold writeAt
  rcases Nat.lt_or_ge j i with h1 | h1
  · rw [List.getElem?_append_left (by simp [hti]; omega),
      List.getElem?_append_left (by simp [hti]; omega),
      List.getElem?_take, if_pos h1, if_neg (by omega)]
  · rcases Nat.lt_or_ge j (i + d.length) with h2 | h2
    · rw [List.getElem?_append_left (by simp [hti]; omega),
        List.getElem?_append_right (by simp [hti]; omega),
        if_pos ⟨h1, h2⟩, hti]
    · rw [List.getElem?_append_right (by simp [hti]; omega),
        List.getElem?_drop, if_neg (by omega)]
      congr 1
      simp [hti]
      omega

theorem length_store (m : Mem α) (sb : Subbuffer α) (d : List α) :
    (sb.store m d).length = m.length := by
  simp [Subbuffer.store]

theorem allocAt_store_self (m : Mem α) (sb : Subbuffer α) (d : List α)
    (h : sb.alloc < m.length) :
    (sb.store m d).allocAt sb.alloc = writeAt (m.allocAt sb.alloc) sb.start d := by
  simp [Subbuffer.store, Mem.allocAt, List.getElem?_set_self',
    List.getElem?_eq_getElem h]

theorem allocAt_store_ne (m : Mem α) (sb : Subbuffer α) (d : List α) (a : Nat)
    (h : sb.alloc ≠ a) :
    (sb.store m d).allocAt a = m.allocAt a := by
  simp [Subbuffer.store, Mem.allocAt, List.getElem?_set_ne h]

theorem length_view (m : Mem α) (sb : Subbuffer α) (h : sb.WF m) :
    (sb.view m).length = sb.len := by
  obtain ⟨h1, h2⟩ := h
  simp [Subbuffer.view]
  omega

theorem getElem?_view (m : Mem α) (sb : Subbuffer α) (j : Nat) :
    (sb.view m)[j]? =
      if j < sb.len then (m.allocAt sb.alloc)[sb.start + j]? else none := by
  simp [Subbuffer.view, List.getElem?_take, List.getElem?_drop]

/-- Reading back a window after storing `d` at its front: the first
`d.length` elements are `d`, the tail is unchanged. -/
theorem view_store_self (m : Mem α) (sb : Subbuffer α) (d : List α)
    (h : sb.WF m) (hd : d.length ≤ sb.len) :
    sb.view (sb.store m d) = d ++ (sb.view m).drop d.length := by
  obtain ⟨h1, h2⟩ := h
  have hA : sb.start + d.length ≤ (m.allocAt sb.alloc).length := by omega
  have hL : ∀ j : Nat, (sb.view (sb.store m d))[j]? =
      if j < sb.len then
        (if sb.start ≤ sb.start + j ∧ sb.start + j < sb.start + d.length then
          d[sb.start + j - sb.start]? else (m.allocAt sb.alloc)[sb.start + j]?)
      else none := by
    intro j
    rw [getElem?_view, allocAt_store_self m sb d h1,
      getElem?_writeAt _ _ _ _ hA]
  apply List.ext_getElem?
  intro j
  rw [hL]
  rcases Nat.lt_or_ge j d.length with hj | hj
  · rw [List.getElem?_append_left (by omega), if_pos (by omega),
      if_pos (by omega)]
    congr 1
    omega
  · rw [List.getElem?_append_right (by omega), List.getElem?_drop,
      getElem?_view]
    have hidx : d.length + (j - d.length) = j := by omega
    rw [hidx]
    by_cases hlen : j < sb.len
    · rw [if_pos hlen, if_pos hlen, if_neg (by omega)]
    · rw [if_neg hlen, if_neg hlen]

/-- Storing `d` through a sub-window at offset `rs` of a parent window is,
seen through the parent, an in-place overwrite at offset `rs`. -/
theorem view_store_sub (m : Mem α) (a s l rs n : Nat) (d : List α)
    (h1 : a < m.length) (h2 : s + l ≤ (m.allocAt a).length)
    (hr : rs + n ≤ l) (hd : d.length ≤ n) :
    Subbuffer.view (Subbuffer.store m ⟨a, s + rs, n⟩ d) ⟨a, s, l⟩
      = writeAt (Subbuffer.view m ⟨a, s, l⟩) rs d := by
  have hA : (s + rs) + d.length ≤ (m.allocAt a).length := by omega
  have hV : (Subbuffer.view m ⟨a, s, l⟩).length = l :=
    length_view m ⟨a, s, l⟩ ⟨h1, h2⟩
  have hL : ∀ j : Nat,
      (Subbuffer.view (Subbuffer.store m ⟨a, s + rs, n⟩ d) ⟨a, s, l⟩)[j]? =
      if j < l then
        (if s + rs ≤ s + j ∧ s + j < s + rs + d.length then
          d[s + j - (s + rs)]? else (m.allocAt a)[s + j]?)
      else none := by
    intro j
    rw [getElem?_view, allocAt_store_self m ⟨a, s + rs, n⟩ d h1,
      getElem?_writeAt _ _ _ _ hA]
  apply List.ext_getElem?
  intro j
  rw [hL, getElem?_writeAt _ _ _ _ (by omega)]
  by_cases hin : rs ≤ j ∧ j < rs + d.length
  · rw [if_pos hin, if_pos (by omega), if_pos (by omega)]
    congr 1
    omega
  · rw [if_neg hin, getElem?_view]
    by_cases hlen : j < l
    · rw [if_pos hlen, if_pos hlen, if_neg (by omega)]
    · rw [if_neg hlen, if_neg hlen]

/-- A full overwrite of the parent window, seen through a sub-window at
offset `rs`, is the corresponding slice of the new data. -/
theorem view_sub_store_parent (m : Mem α) (a s l rs n : Nat) (d : List α)
    (h1 : a < m.length) (h2 : s + l ≤ (m.allocAt a).length)
    (hr : rs + n ≤ l) (hd : d.length = l) :
    Subbuffer.view (Subbuffer.store m ⟨a, s, l⟩ d) ⟨a, s + rs, n⟩
      = (d.drop rs).take n := by
  have hA : s + d.length ≤ (m.allocAt a).length := by omega
  apply List.ext_getElem?
  intro j
  rw [getElem?_view, allocAt_store_self m ⟨a, s, l⟩ d h1]
  simp only [List.getElem?_take, List.getElem?_drop]
  by_cases hj : j < n
  · rw [if_pos hj, if_pos hj, getElem?_writeAt _ _ _ _ hA,
      if_pos (by omega)]
    congr 1
    omega
  · rw [if_neg hj, if_neg hj]

/-- Storing data of exactly the window's length overwrites the window. -/
theorem view_store_exact (m : Mem α) (sb : Subbuffer α) (d : List α)
    (h : sb.WF m) (hd : d.length = sb.len) :
    sb.view (sb.store m d) = d := by
  rw [view_store_self m sb d h (by omega)]
  have hnil : (sb.view m).drop d.length = [] := by
    have hv := length_view m sb h
    exact List.drop_eq_nil_of_le (by omega)
  rw [hnil, List.append_nil]

/-- A successful `Buffer::sub` means the range was non-empty and in bounds,
and the result is the slice sharing the parent's allocation. -/
theorem Buffer.sub_eq_ok {b s : Buffer α loc} {r : RustRange}
    (h : b.sub r = .ok s) :
    r.start < r.stop ∧ r.stop ≤ b.len ∧
      s.buffer = ⟨b.buffer.alloc, b.buffer.start + r.start, r.stop - r.start⟩ := by
  unfold Buffer.sub at h
  split_ifs at h with h1 h2
  cases h
  refine ⟨by omega, by omega, ?_⟩
  simp [Subbuffer.slice]

/-! Claim theorems. -/

/-- C6: for every allocator state and every length, `allocate` (both the
`Cpu` and the `Gpu` location) fails with `ZeroLength` (`LengthIsZero` in the
source) when `length == 0`, and for every `length > 0` a successful
`allocate(length)` yields a buffer with `length() == length`. -/
theorem allocate_length_contract {α : Type} [Inhabited α] (m : Mem α) (len : Nat) :
    (len = 0 → CpuBuffer.new m len = .error .lengthIsZero ∧
      GpuBuffer.new m len = .error .lengthIsZero) ∧
    (0 < len → ∃ b m', CpuBuffer.new m len = .ok (b, m') ∧ b.len = len) ∧
    (0 < len → ∃ g m', GpuBuffer.new m len = .ok (g, m') ∧ g.len = len) := by
  refine ⟨?_, ?_, ?_⟩
  · intro h
    subst h
    exact ⟨rfl, rfl⟩
  · intro h
    refine ⟨⟨⟨m.length, 0, len⟩⟩, m ++ [List.replicate len default], ?_, rfl⟩
    unfold CpuBuffer.new
    rw [if_neg (by omega)]
  · intro h
    refine ⟨⟨⟨m.length, 0, len⟩⟩, m ++ [List.replicate len default], ?_, rfl⟩
    unfold GpuBuffer.new
    rw [if_neg (by omega)]

theorem allocate_length_contract_witness :
    (CpuBuffer.new ([] : Mem Int) 0 = .error .lengthIsZero ∧
      GpuBuffer.new ([] : Mem Int) 0 = .error .lengthIsZero) ∧
    (∃ b m', CpuBuffer.new ([] : Mem Int) 3 = .ok (b, m') ∧ b.len = 3) ∧
    (∃ g m', GpuBuffer.new ([] : Mem Int) 3 = .ok (g, m') ∧ g.len = 3) :=
  ⟨(allocate_length_contract [] 0).1 rfl,
    (allocate_length_contract [] 3).2.1 (by omega),
    (allocate_length_contract [] 3).2.2 (by omega)⟩

/-- C7: `sub(range)` fails with `EmptyRange` (`RangeIsEmpty`) exactly when
`range.start >= range.end`, fails with `OutOfBounds` (`RangeIsOutOfBounds`)
exactly when `range.start < range.end` and `range.end > length()`, and
otherwise succeeds with a view whose `length()` is `range.end - range.start`. -/
theorem sub_error_classification {α : Type} {loc : Loc} (b : Buffer α loc)
    (r : RustRange) :
    (b.sub r = .error .rangeIsEmpty ↔ r.stop ≤ r.start) ∧
    (b.sub r = .error .rangeIsOutOfBounds ↔ r.start < r.stop ∧ b.len < r.stop) ∧
    (r.start < r.stop → r.stop ≤ b.len →
      ∃ s, b.sub r = .ok s ∧ s.len = r.stop - r.start) := by
  refine ⟨?_, ?_, ?_⟩
  · unfold Buffer.sub
    split_ifs with h1 h2 <;> simp <;> omega
  · unfold Buffer.sub
    split_ifs with h1 h2 <;> simp <;> omega
  · intro h1 h2
    refine ⟨⟨b.buffer.slice r⟩, ?_, by simp [Buffer.len, Subbuffer.slice]⟩
    unfold Buffer.sub
    rw [if_neg (by omega), if_neg (by omega)]

theorem sub_error_classification_witness :
    (Buffer.sub (⟨⟨0, 0, 4⟩⟩ : Buffer Int .cpu) ⟨3, 3⟩ = .error .rangeIsEmpty ↔
      (3 : Nat) ≤ 3) ∧
    (∃ s, Buffer.sub (⟨⟨0, 0, 4⟩⟩ : Buffer Int .cpu) ⟨1, 3⟩ = .ok s ∧
      s.len = 3 - 1) :=
  ⟨(sub_error_classification ⟨⟨0, 0, 4⟩⟩ ⟨3, 3⟩).1,
    (sub_error_classification ⟨⟨0, 0, 4⟩⟩ ⟨1, 3⟩).2.2 (by decide) (by decide)⟩

/-- C8: for every `Cpu` buffer and vector `d` with `d.len() == length()`,
`write(d)` succeeds and a subsequent `read()` returns exactly `d` in index
order. -/
theorem write_read_roundtrip {α : Type} (m : Mem α) (b : Buffer α .cpu)
    (d : List α) (h : b.buffer.WF m) (hd : d.length = b.len) :
    ∃ m', Buffer.write m b d = .ok m' ∧ Buffer.read m' b = .ok d := by
  have hbl : b.len = b.buffer.len := rfl
  refine ⟨b.buffer.store m d, ?_, ?_⟩
  · unfold Buffer.write
    rw [if_pos (by omega)]
  · unfold Buffer.read
    rw [view_store_exact m b.buffer d h (by omega)]

theorem write_read_roundtrip_witness :
    ∃ m', Buffer.write [[1, 2, 3, 4]] (⟨⟨0, 0, 4⟩⟩ : Buffer Int .cpu)
        [5, 6, 7, 8] = .ok m' ∧
      Buffer.read m' (⟨⟨0, 0, 4⟩⟩ : Buffer Int .cpu) = .ok [5, 6, 7, 8] :=
  write_read_roundtrip [[1, 2, 3, 4]] ⟨⟨0, 0, 4⟩⟩ [5, 6, 7, 8]
    (by decide) (by decide)

/-- C2: the claim says `write(data)` always succeeds and silently discards
excess input when `data.len() > length()`.  The source computes
`min(data.len(), self.len())` — the intended truncation — but then calls
`copy_from_slice(data.as_slice())` with the full `data` as the source slice,
which panics when the slice lengths differ, i.e. exactly in the
`data.len() > length()` case.  On a 1-element buffer, `write([9, 10])`
panics; the lenient short-write branch (`write([9, 10])` on `[1, 2, 3, 4]`
giving `[9, 10, 3, 4]`) behaves as the claim says. -/
theorem write_oversized_input_panics :
    Buffer.write [[1]] (⟨⟨0, 0, 1⟩⟩ : Buffer Int .cpu) [9, 10] = .panicked ∧
    Buffer.write [[1, 2, 3, 4]] (⟨⟨0, 0, 4⟩⟩ : Buffer Int .cpu) [9, 10]
      = .ok [[9, 10, 3, 4]] := by
  exact ⟨rfl, rfl⟩

/-- C3: the claim says no public operation of the core panics on
caller-supplied input.  `Buffer::<T, Cpu>::write` panics (in
`copy_from_slice`) whenever the caller passes more elements than the
buffer holds — here a well-formed 2-element buffer and a 3-element input. -/
theorem core_write_panics_on_caller_input :
    ∃ (m : Mem Int) (b : Buffer Int .cpu) (d : List Int),
      b.buffer.WF m ∧ Buffer.write m b d = .panicked :=
  ⟨[[1, 2]], ⟨⟨0, 0, 2⟩⟩, [7, 8, 9], by decide, rfl⟩

/-- C9: every buffer value reachable through the public API (`allocate` at
either location, `from_contents`, `sub`, `clone`) has `length() > 0`; no
operation produces a zero-length buffer. -/
theorem reachable_buffer_length_pos {α : Type} [Inhabited α] {loc : Loc}
    (b : Buffer α loc) (hb : ReachableBuffer b) : 0 < b.len := by
  induction hb with
  | ofNewCpu m len b' m' h =>
    unfold CpuBuffer.new at h
    split_ifs at h with h0
    cases h
    simpa [Buffer.len] using Nat.pos_of_ne_zero h0
  | ofNewGpu m len b' m' h =>
    unfold GpuBuffer.new at h
    split_ifs at h with h0
    cases h
    simpa [Buffer.len] using Nat.pos_of_ne_zero h0
  | ofFromVec m data b' m' h =>
    unfold CpuBuffer.from_vec CpuBuffer.new at h
    split_ifs at h with h0
    simp [Buffer.write, Buffer.len] at h
    obtain ⟨hb', -⟩ := h
    rw [← hb']
    simpa [Buffer.len] using Nat.pos_of_ne_zero h0
  | ofSub b b' r hb h ih =>
    obtain ⟨h1, h2, h3⟩ := Buffer.sub_eq_ok h
    simp [Buffer.len, h3]
    omega
  | ofClone b hb ih =>
    simpa [Buffer.clone, Buffer.len] using ih

theorem reachable_buffer_length_pos_witness :
    0 < Buffer.len (⟨⟨0, 0, 1⟩⟩ : Buffer Int .cpu) :=
  reachable_buffer_length_pos ⟨⟨0, 0, 1⟩⟩
    (ReachableBuffer.ofNewCpu [] 1 ⟨⟨0, 0, 1⟩⟩ [[default]] rfl)

/-- C10: cloning a buffer handle (`#[derive(Clone)]` clones the `Arc`-backed
subbuffer) yields a second handle onto the same storage: same `length()`,
and reads and writes through either handle agree; concretely (the
repository's `tests::clone` scenario) after writing `[5, 6]` through a
`sub(1..3)` view of the original `[1, 2, 3, 4]`, both the clone and the
original read `[1, 5, 6, 4]`. -/
theorem clone_shares_storage :
    (∀ (α : Type) (loc : Loc) (b : Buffer α loc), (Buffer.clone b).len = b.len) ∧
    (∀ (α : Type) (m : Mem α) (b : Buffer α .cpu),
      Buffer.read m (Buffer.clone b) = Buffer.read m b) ∧
    (∀ (α : Type) (m : Mem α) (b : Buffer α .cpu) (d : List α),
      Buffer.write m (Buffer.clone b) d = Buffer.write m b d) ∧
    (∃ s, Buffer.sub (⟨⟨0, 0, 4⟩⟩ : Buffer Int .cpu) ⟨1, 3⟩ = .ok s ∧
      Buffer.write [[1, 2, 3, 4]] s [5, 6] = .ok [[1, 5, 6, 4]] ∧
      Buffer.read [[1, 5, 6, 4]] (Buffer.clone (⟨⟨0, 0, 4⟩⟩ : Buffer Int .cpu))
        = .ok [1, 5, 6, 4] ∧
      Buffer.read [[1, 5, 6, 4]] (⟨⟨0, 0, 4⟩⟩ : Buffer Int .cpu)
        = .ok [1, 5, 6, 4]) :=
  ⟨fun _ _ _ => rfl, fun _ _ _ => rfl, fun _ _ _ _ => rfl,
    ⟨⟨⟨0, 1, 2⟩⟩, rfl, rfl, rfl, rfl⟩⟩

/-- C5: a view returned by `sub` shares the parent's storage: it has the
same allocation; a write through the view is read back through the parent
as an in-place overwrite at the range's offset (and through the view as the
written data); and a full write through the parent is read back through the
view as the corresponding slice. -/
theorem sub_view_aliasing {α : Type} (m : Mem α) (b s : Buffer α .cpu)
    (r : RustRange) (d : List α) (hwf : b.buffer.WF m)
    (hs : b.sub r = .ok s) (hd : d.length = s.len) :
    s.buffer.alloc = b.buffer.alloc ∧
    (∃ m', Buffer.write m s d = .ok m' ∧
      Buffer.read m' b = .ok (writeAt (b.buffer.view m) r.start d) ∧
      Buffer.read m' s = .ok d) ∧
    (∀ d₂ : List α, d₂.length = b.len →
      ∃ m'', Buffer.write m b d₂ = .ok m'' ∧
        Buffer.read m'' s = .ok ((d₂.drop r.start).take s.len)) := by
  obtain ⟨hr1, hr2, hsb⟩ := Buffer.sub_eq_ok hs
  obtain ⟨h1, h2⟩ := hwf
  have hbl : b.len = b.buffer.len := rfl
  have hslen : s.len = r.stop - r.start := by
    simp [Buffer.len, hsb]
  have hsl : s.len = s.buffer.len := rfl
  have hswf : s.buffer.WF m := by
    rw [hsb]
    exact ⟨h1, by simp; omega⟩
  refine ⟨by rw [hsb], ⟨s.buffer.store m d, ?_, ?_, ?_⟩, ?_⟩
  · unfold Buffer.write
    rw [if_pos (by omega)]
  · unfold Buffer.read
    congr 1
    rw [hsb]
    exact view_store_sub m b.buffer.alloc b.buffer.start b.buffer.len
      r.start (r.stop - r.start) d h1 h2 (by omega) (by omega)
  · unfold Buffer.read
    rw [view_store_exact m s.buffer d hswf (by omega)]
  · intro d₂ hd₂
    refine ⟨b.buffer.store m d₂, ?_, ?_⟩
    · unfold Buffer.write
      rw [if_pos (by omega)]
    · unfold Buffer.read
      congr 1
      rw [hsb, hslen]
      exact view_sub_store_parent m b.buffer.alloc b.buffer.start b.buffer.len
        r.start (r.stop - r.start) d₂ h1 h2 (by omega) (by omega)

theorem sub_view_aliasing_witness :
    (∃ m', Buffer.write [[1, 2, 3, 4]] (⟨⟨0, 1, 2⟩⟩ : Buffer Int .cpu) [5, 6]
        = .ok m' ∧
      Buffer.read m' (⟨⟨0, 0, 4⟩⟩ : Buffer Int .cpu)
        = .ok (writeAt (Subbuffer.view [[1, 2, 3, 4]] ⟨0, 0, 4⟩) 1 [5, 6]) ∧
      Buffer.read m' (⟨⟨0, 1, 2⟩⟩ : Buffer Int .cpu) = .ok [5, 6]) ∧
    writeAt (Subbuffer.view [[1, 2, 3, 4]] ⟨0, 0, 4⟩) 1 [5, 6] = [1, 5, 6, 4] :=
  ⟨(sub_view_aliasing [[1, 2, 3, 4]] ⟨⟨0, 0, 4⟩⟩ ⟨⟨0, 1, 2⟩⟩ ⟨1, 3⟩ [5, 6]
      (by decide) rfl (by decide)).2.1,
    by decide⟩

/-- C1, counterexample: the claim says recording `copy(a, b)` fails with
`UnequalBufferSize` whenever `a.length() != b.length()` and performs no
partial copy.  On a 2-element source and a 4-element destination,
`copy_buffer` succeeds (it performs no length comparison; `UnequalBufferSize`
is a variant of the dead `errors.rs` enum that nothing constructs), the copy
is appended to the recorded sequence, and executing the built task copies
the 2 common elements — a partial copy of the destination. -/
theorem copy_buffer_unequal_lengths_not_rejected :
    TaskBuilder.copy_buffer (⟨[]⟩ : TaskBuilder Int) (⟨⟨0, 0, 2⟩⟩ : Buffer Int .cpu)
        (⟨⟨1, 0, 4⟩⟩ : Buffer Int .cpu) = .ok ⟨[.copy ⟨0, 0, 2⟩ ⟨1, 0, 4⟩]⟩ ∧
    Task.submit_and_wait ⟨[.copy (⟨0, 0, 2⟩ : Subbuffer Int) ⟨1, 0, 4⟩]⟩
        [[1, 2], [0, 0, 0, 0]] = .ok [[1, 2], [1, 2, 0, 0]] :=
  ⟨rfl, rfl⟩

/-- C1, amended: recording `copy(a, b)` on a Task Builder always succeeds,
appending the copy to the recorded sequence unchanged otherwise; executing
the recorded copy transfers `min(a.length(), b.length())` elements from the
start of `a` to the start of `b` (a partial copy when lengths differ), and
no `UnequalBufferSize` error exists in the live error type. -/
theorem copy_buffer_records_min_copy {α : Type} {locA locB : Loc}
    (tb : TaskBuilder α) (a : Buffer α locA) (b : Buffer α locB) (m : Mem α)
    (ha : a.buffer.WF m) (hb : b.buffer.WF m) :
    TaskBuilder.copy_buffer tb a b = .ok ⟨tb.cmds ++ [.copy a.buffer b.buffer]⟩ ∧
    Subbuffer.view (Cmd.exec (.copy a.buffer b.buffer) m) b.buffer
      = (a.buffer.view m).take (min a.len b.len)
        ++ (b.buffer.view m).drop (min a.len b.len) := by
  have hal : a.len = a.buffer.len := rfl
  have hbl : b.len = b.buffer.len := rfl
  have hva := length_view m a.buffer ha
  have hdl : ((a.buffer.view m).take (min a.len b.len)).length
      = min a.len b.len := by
    simp [List.length_take, hva]
    omega
  constructor
  · rfl
  · show Subbuffer.view
        (b.buffer.store m ((a.buffer.view m).take (min a.buffer.len b.buffer.len)))
        b.buffer = _
    have hmin : min a.buffer.len b.buffer.len = min a.len b.len := rfl
    rw [hmin, view_store_self m b.buffer _ hb (by omega), hdl]

theorem copy_buffer_records_min_copy_witness :
    TaskBuilder.copy_buffer (⟨[]⟩ : TaskBuilder Int) (⟨⟨0, 0, 3⟩⟩ : Buffer Int .cpu)
        (⟨⟨1, 0, 2⟩⟩ : Buffer Int .gpu) = .ok ⟨[.copy ⟨0, 0, 3⟩ ⟨1, 0, 2⟩]⟩ ∧
    Subbuffer.view (Cmd.exec (.copy (⟨0, 0, 3⟩ : Subbuffer Int) ⟨1, 0, 2⟩)
        [[4, 5, 6], [7, 8]]) ⟨1, 0, 2⟩ = [4, 5] :=
  by
  have h := copy_buffer_records_min_copy ⟨[]⟩ (⟨⟨0, 0, 3⟩⟩ : Buffer Int .cpu)
    (⟨⟨1, 0, 2⟩⟩ : Buffer Int .gpu) [[4, 5, 6], [7, 8]] (by decide) (by decide)
  refine ⟨h.1, ?_⟩
  show Subbuffer.view
      (Cmd.exec (.copy (⟨⟨0, 0, 3⟩⟩ : Buffer Int .cpu).buffer
        (⟨⟨1, 0, 2⟩⟩ : Buffer Int .gpu).buffer) [[4, 5, 6], [7, 8]])
      (⟨⟨1, 0, 2⟩⟩ : Buffer Int .gpu).buffer = [4, 5]
  rw [h.2]
  decide

/-- C4: submission executes the frozen command sequence against the memory
as it is at that submission — a command template over mutable buffers, not
a snapshot — so a built Task may be submitted any number of times; in the
doubling example, the builder chain records one dispatch of the doubling
program over the buffer `[1, 2, 3, 4]`, the first `submit_and_wait` yields
`read() == [2, 4, 6, 8]`, and resubmitting the very same Task yields
`read() == [4, 8, 12, 16]`. -/
theorem task_resubmission_uses_current_contents :
    (∀ (α : Type) (t : Task α) (m : Mem α),
      t.submit_and_wait m = .ok (t.exec m)) ∧
    doubleBuild = .ok doubleTask ∧
    doubleTask.submit_and_wait [[1, 2, 3, 4]] = .ok [[2, 4, 6, 8]] ∧
    Buffer.read [[2, 4, 6, 8]] doubleBuf = .ok [2, 4, 6, 8] ∧
    doubleTask.submit_and_wait [[2, 4, 6, 8]] = .ok [[4, 8, 12, 16]] ∧
    Buffer.read [[4, 8, 12, 16]] doubleBuf = .ok [4, 8, 12, 16] :=
  ⟨fun _ _ _ => rfl, rfl, rfl, rfl, rfl, rfl⟩

end Engine
